import Mathlib

/-!
Formal model of the expression compiler and RPN stack evaluator of
`mult_by_columns_library.py` (functions `mult_by_columns` and
`raster_rpn_calculator_op`).

Modelling conventions:
* numpy float arrays are lists of rationals (`List ℚ`); the exact float
  values appearing in the claims (2.0, 8.0, -9999.0, 1e-5, 1e-8) are all
  exactly representable, so rational arithmetic agrees with the float
  arithmetic of the source on every concrete input used below;
* the interleaved `args_list` (array0, nodata0, array1, nodata1, ...) is
  modelled as a list of `(array, nodata)` pairs, so the source's access
  `args_list[2*i]` / `args_list[2*i+1]` becomes `args.get? i`;
* Python exceptions (`IndexError`, `KeyError`, `TypeError`, `ValueError`,
  `RuntimeError`, `sys.exit`) are modelled with `Except String`;
* a Python list used as a stack (append / pop at the end, `pop(0)` at the
  front) is modelled by a Lean list in the same element order.
-/

deriving instance DecidableEq for Except

namespace MultByColumns

/-- numpy's default relative tolerance for `numpy.isclose` (1e-05). -/
def RTOL : ℚ := 1 / 100000

/-- numpy's default absolute tolerance for `numpy.isclose` (1e-08). -/
def ATOL : ℚ := 1 / 100000000

/-- `numpy.isclose(a, b)` for finite values:
`|a - b| <= atol + rtol * |b|`. -/
def isclose (a b : ℚ) : Bool := |a - b| ≤ ATOL + RTOL * |b|

/-- A value of the Python RPN token stream: the source mixes floats/ints and
strings in one list (`rpn_stack`); operator tokens are the strings
"+", "*", "^" themselves. -/
inductive PyTok where
  | num (q : ℚ)
  | str (s : String)
deriving DecidableEq

/-- The keys of `OPERATOR_FN` in the source. -/
def opNames : List String := ["+", "*", "^"]

/-- `val in OPERATOR_FN` of the source. -/
def isOperator : PyTok → Bool
  | .num _ => false
  | .str s => opNames.contains s

/-- numpy.power on a rational base with a rational exponent: for an integer
exponent (the only case produced by the compiler, which casts exponents with
`int(...)`) this is exact integer exponentiation; a non-integer exponent
would be a real-valued power not representable in ℚ and is mapped to the
junk value 0 (never exercised by any compiled stream). -/
def qpow (a b : ℚ) : ℚ := if b.den = 1 then a ^ b.num else 0

/-- The `OPERATOR_FN` dict of the source: '+' -> numpy.add,
'*' -> numpy.multiply, '^' -> numpy.power. -/
def OPERATOR_FN (s : String) : ℚ → ℚ → ℚ :=
  if s = "+" then (· + ·) else if s = "*" then (· * ·) else qpow

/-- A value on the evaluator's `accumulator_stack`: either a numpy scalar
(a pushed coefficient / exponent) or a 1-d array (a masked raster block). -/
inductive Val where
  | scalar (q : ℚ)
  | arr (xs : List ℚ)
deriving DecidableEq

/-- Elementwise application of a binary numpy ufunc with the scalar/array
broadcasting numpy performs; two arrays of different lengths is a numpy
broadcast error. -/
def applyOp (f : ℚ → ℚ → ℚ) : Val → Val → Except String Val
  | .scalar a, .scalar b => .ok (.scalar (f a b))
  | .scalar a, .arr b => .ok (.arr (b.map fun x => f a x))
  | .arr a, .scalar b => .ok (.arr (a.map fun x => f x b))
  | .arr a, .arr b =>
    if a.length = b.length then .ok (.arr (List.zipWith f a b))
    else .error "ValueError: operands could not be broadcast together"

/-- numpy boolean-mask indexing `xs[mask]`: keeps the entries at the true
positions; a mask whose length differs from the array is an IndexError. -/
def maskedSelect (mask : List Bool) (xs : List ℚ) : Except String (List ℚ) :=
  if mask.length = xs.length then
    .ok ((xs.zip mask).filterMap fun p => if p.2 then some p.1 else none)
  else .error "IndexError: boolean index did not match indexed array"

/-- The shape of `args_list[0]` (the first raster block). -/
def tileShape (args : List (List ℚ × Option ℚ)) : Nat :=
  match args with
  | [] => 0
  | (a, _) :: _ => a.length

/-- `valid_mask &= ~numpy.isclose(array, nodata)` for one slot. -/
def maskAnd (m : List Bool) (arr : List ℚ) (nv : ℚ) : List Bool :=
  List.zipWith (fun b x => b && !(isclose x nv)) m arr

/-- The mask-building loop of `raster_rpn_calculator_op` (lines 69-73):
slot counter `j` models `index // 2`; a slot with an undefined nodata value
or a slot listed in `zero_nodata_indexes` leaves the mask unchanged. -/
def validMaskAux (zeroIdx : List Nat) : Nat → List (List ℚ × Option ℚ) → List Bool → List Bool
  | _, [], m => m
  | j, (arr, nd) :: rest, m =>
    validMaskAux zeroIdx (j + 1) rest
      (match nd with
       | some nv => if zeroIdx.contains j then m else maskAnd m arr nv
       | none => m)

/-- `valid_mask` of `raster_rpn_calculator_op`: all-true, then ANDed per
non-zero-on-nodata slot with a defined nodata value. -/
def validMask (args : List (List ℚ × Option ℚ)) (zeroIdx : List Nat) : List Bool :=
  validMaskAux zeroIdx 0 args (List.replicate (tileShape args) true)

/-- One iteration of the `while rpn_stack:` loop (lines 77-94): an operator
token pops `operand_b` then `operand_a` from the end of the stack and pushes
`OPERATOR_FN[op](operand_a, operand_b)`; a string symbol looks up its slot
index; a slot in `zero_nodata_indexes` first replaces nodata-close entries
by 0.0 (a nodata value of None makes `numpy.isclose(array, None)` raise a
TypeError); then the masked array is pushed; a numeric token is pushed as a
scalar. -/
def evalStep (args : List (List ℚ × Option ℚ)) (info : List (String × Nat))
    (zeroIdx : List Nat) (mask : List Bool) (stack : List Val) :
    PyTok → Except String (List Val)
  | .num q => .ok (stack ++ [.scalar q])
  | .str s =>
    if opNames.contains s then
      match stack.getLast? with
      | none => .error "IndexError: pop from empty list"
      | some b =>
        match stack.dropLast.getLast? with
        | none => .error "IndexError: pop from empty list"
        | some a =>
          match applyOp (OPERATOR_FN s) a b with
          | .error e => .error e
          | .ok v => .ok (stack.dropLast.dropLast ++ [v])
    else
      match info.lookup s with
      | none => .error "KeyError: symbol not in info dict"
      | some idx =>
        match args.get? idx with
        | none => .error "IndexError: args_list index out of range"
        | some (arr, nd) =>
          if zeroIdx.contains idx then
            match nd with
            | none => .error "TypeError: isclose against a None nodata"
            | some nv =>
              match maskedSelect mask (arr.map fun x => if isclose x nv then 0 else x) with
              | .error e => .error e
              | .ok xs => .ok (stack ++ [.arr xs])
          else
            match maskedSelect mask arr with
            | .error e => .error e
            | .ok xs => .ok (stack ++ [.arr xs])

/-- The full `while rpn_stack:` loop, returning the final
`accumulator_stack`. -/
def evalLoop (args : List (List ℚ × Option ℚ)) (info : List (String × Nat))
    (zeroIdx : List Nat) (mask : List Bool) :
    List PyTok → List Val → Except String (List Val)
  | [], stack => .ok stack
  | t :: ts, stack =>
    match evalStep args info zeroIdx mask stack t with
    | .error e => .error e
    | .ok stack2 => evalLoop args info zeroIdx mask ts stack2

/-- `result[valid_mask] = value` with `result` initialised to the target
nodata everywhere: a scalar broadcasts; an array must supply exactly one
entry per true mask position (numpy raises otherwise). -/
def scatterArr (t : ℚ) : List Bool → List ℚ → Except String (List ℚ)
  | [], [] => .ok []
  | [], _ :: _ => .error "ValueError: could not broadcast input array"
  | true :: _, [] => .error "ValueError: could not broadcast input array"
  | true :: bs, x :: xs =>
    match scatterArr t bs xs with
    | .error e => .error e
    | .ok r => .ok (x :: r)
  | false :: bs, xs =>
    match scatterArr t bs xs with
    | .error e => .error e
    | .ok r => .ok (t :: r)

/-- `result[valid_mask] = v` for a stack value `v`. -/
def scatterVal (mask : List Bool) (v : Val) (t : ℚ) : Except String (List ℚ) :=
  match v with
  | .scalar q => .ok (mask.map fun b => if b then q else t)
  | .arr xs => scatterArr t mask xs

/-- Lines 96-100 of the source: `result[valid_mask] =
accumulator_stack.pop(0) * conversion_factor` followed by the
non-empty-stack check. `pop(0)` pops the FIRST pushed element; an empty
stack raises IndexError; a stack still holding elements after the pop
raises RuntimeError (after the result assignment, so the assignment's own
errors come first). -/
def finalizeResult (t conv : ℚ) (mask : List Bool) :
    Except String (List Val) → Except String (List ℚ)
  | .error e => .error e
  | .ok [] => .error "IndexError: pop from empty list"
  | .ok (v :: rest) =>
    match applyOp (· * ·) v (.scalar conv) with
    | .error e => .error e
    | .ok scaled =>
      match scatterVal mask scaled t with
      | .error e => .error e
      | .ok out =>
        if rest.isEmpty then .ok out
        else .error "RuntimeError: accumulator_stack not empty"

/-- `raster_rpn_calculator_op` (lines 36-100): computes the valid mask,
evaluates the RPN stream, multiplies the single remaining value by the
conversion factor (defaulted to 1 when None) and scatters it into an
output initialised to `target_nodata`. -/
def raster_rpn_calculator_op (args : List (List ℚ × Option ℚ)) (target_nodata : ℚ)
    (rpn_stack : List PyTok) (info : List (String × Nat)) (zeroIdx : List Nat)
    (conversion_factor : Option ℚ) : Except String (List ℚ) :=
  finalizeResult target_nodata (conversion_factor.getD 1) (validMask args zeroIdx)
    (evalLoop args info zeroIdx (validMask args zeroIdx) rpn_stack [])

/-! ## The table compiler (`mult_by_columns`, lines 144-194) -/

/-- `INTERCEPT_COLUMN_ID` of the source. -/
def INTERCEPT_COLUMN_ID : String := "intercept"

/-- Python's `s.split(sep)` for a one-character separator (the source splits
on '*' and on '^'): every occurrence separates, nothing is collapsed, the
empty string splits to one empty part. -/
def pySplit (sep : Char) : List Char → List (List Char)
  | [] => [[]]
  | c :: cs =>
    if c = sep then [] :: pySplit sep cs
    else
      match pySplit sep cs with
      | [] => [[c]]
      | r :: rs => (c :: r) :: rs

/-- The characters after a prefix that Python's regex capture `(.*)` keeps:
`.` does not match a newline, so the capture stops at the first `'\n'`. -/
def takeUntilNewline (cs : List Char) : List Char := cs.takeWhile (· ≠ '\n')

/-- The metacharacters of Python's `re` module: a pattern character outside
this list matches itself literally. -/
def regexSpecialChars : List Char :=
  ['.', '^', '$', '*', '+', '?', '\x7b', '\x7d', '[', ']', '\\', '|', '(', ')']

/-- A string that, interpolated into a regex pattern, matches exactly itself:
it contains no regex metacharacter. The source interpolates the base raster
id into `re.match(fr'{base}(.*)', product)` unescaped, so only such base
ids behave as a plain prefix. -/
def regexLiteral (s : String) : Bool :=
  s.data.all fun c => !(regexSpecialChars.contains c)

/-- Lines 162-169 of the source: if the factor starts with
`base_convolution_raster_id`, `re.match(fr'{base}(.*)', product)` captures
the rest of the factor up to the first newline and the factor becomes
`target_raster_id` followed by that captured suffix; otherwise the factor
is left unchanged. This models the regex for base ids satisfying
`regexLiteral` (no regex metacharacters): a base id containing
metacharacters is interpolated into the pattern verbatim, so the code can
capture a different suffix (base "a+" on factor "a+b" captures "+b") or
fail the match and crash on `match.group` (base "a$"), behaviour that is
outside this model and outside every theorem that constrains the
substituted result. -/
def substituteBase (base target product : String) : String :=
  if base.data.isPrefixOf product.data then
    String.mk (target.data ++ takeUntilNewline (product.data.drop base.data.length))
  else product

/-- Python's `str.strip()` whitespace trimming. -/
def pyTrim (cs : List Char) : List Char :=
  ((cs.dropWhile Char.isWhitespace).reverse.dropWhile Char.isWhitespace).reverse

/-- Decimal digits to a natural number. -/
def digitsToNat (ds : List Char) : Nat :=
  ds.foldl (fun n c => 10 * n + (c.toNat - 48)) 0

/-- Python's `int(s)` on a string for the forms the table uses: surrounding
whitespace stripped, an optional minus sign, decimal digits; `none` when the
string is not such an integer literal (Python raises ValueError). -/
def pyInt (cs : List Char) : Option Int :=
  match pyTrim cs with
  | '-' :: ds =>
    if !ds.isEmpty && ds.all Char.isDigit then some (-(digitsToNat ds : Int))
    else none
  | ds =>
    if !ds.isEmpty && ds.all Char.isDigit then some (digitsToNat ds : Int)
    else none

/-- Lines 162-181 of the source, one factor (`product`) of a term: apply
the base-name substitution; if the substituted factor contains '^', split
on '^', push every part as a string except the last, which is cast with
`int(...)` (ValueError when not an integer literal), then push '^';
otherwise push the factor as a single symbol. -/
def compileFactor (base target : String) (product0 : String) :
    Except String (List PyTok) :=
  let product := (substituteBase base target product0).data
  if product.contains '^' then
    match (pySplit '^' product).getLast? with
    | none => .error "IndexError: empty split"
    | some last =>
      match pyInt last with
      | none => .error "ValueError: invalid literal for int"
      | some k =>
        .ok (((pySplit '^' product).dropLast.map fun p => PyTok.str (String.mk p)) ++
          [PyTok.num (k : ℚ), PyTok.str "^"])
  else .ok [PyTok.str (String.mk product)]

/-- One table row (lines 146-181): the intercept row pushes only its
coefficient; every other row pushes the coefficient, then for each factor
of `header.split('*')` the factor's tokens followed by '*'. -/
def compileRow (base target : String) (row : String × ℚ) :
    Except String (List PyTok) :=
  if row.1 = INTERCEPT_COLUMN_ID then .ok [PyTok.num row.2]
  else do
    let toks ← (pySplit '*' row.1.data).foldlM
      (fun (acc : List PyTok) p => do
        let ts ← compileFactor base target (String.mk p)
        pure (acc ++ ts ++ [PyTok.str "*"])) []
    pure (PyTok.num row.2 :: toks)

/-- The row loop of `mult_by_columns` (lines 144-187): rows are compiled in
order; after every row except the first, an '+' token is appended to fold
the term into the running sum. -/
def compileTable (base target : String) (table : List (String × ℚ)) :
    Except String (List PyTok) := do
  let r ← table.foldlM
    (fun (acc : Bool × List PyTok) row => do
      let ts ← compileRow base target row
      if acc.1 then pure (false, acc.2 ++ ts)
      else pure (false, acc.2 ++ ts ++ [PyTok.str "+"]))
    (true, [])
  pure r.2

/-! ## Plan construction (`mult_by_columns`, lines 192-292) -/

/-- Line 192-194 of the source:
`[x for x in set(rpn_stack)-set(OPERATOR_FN) if not isinstance(x, (int, float))]`.
The iteration of the Python set is modelled by an explicit enumeration
`setEnum` of its elements (each distinct non-operator token of the stream
exactly once, in an order the language does not specify); the comprehension
keeps the string elements. -/
def discoveredIds (setEnum : List PyTok) : List String :=
  setEnum.filterMap fun t =>
    match t with
    | .str s => some s
    | .num _ => none

/-- `setEnum` is a faithful enumeration of `set(rpn_stack)-set(OPERATOR_FN)`:
a list holding each distinct non-operator element of the stream exactly
once, in some order. -/
def ValidSetEnum (setEnum stream : List PyTok) : Prop :=
  List.Perm setEnum (stream.filter fun t => !isOperator t).dedup

instance (setEnum stream : List PyTok) : Decidable (ValidSetEnum setEnum stream) :=
  List.decidablePerm setEnum ((stream.filter fun t => !isOperator t).dedup)

/-- Lines 199-225 of the source: each discovered raster id is resolved by
the external layer (`resolver` returns `none` when the raster file does not
exist, otherwise the raster's nodata value); ids are given the slot index of
their position in `raster_id_list`; any missing raster aborts the whole
operation with one aggregated fatal error (`sys.exit(-1)`). -/
def buildInfoMap (resolver : String → Option (Option ℚ))
    (raster_id_list : List String) :
    Except String (List (String × Nat × Option ℚ)) :=
  if (raster_id_list.filter fun r => (resolver r).isNone).isEmpty then
    .ok (raster_id_list.enum.filterMap fun p =>
      (resolver p.2).map fun nd => (p.2, p.1, nd))
  else
    .error ("SystemExit: could not find rasters: " ++
      String.intercalate ", " (raster_id_list.filter fun r => (resolver r).isNone))

/-- Lines 283-286 of the source:
`{info[r]['index'] for r in zero_nodata_symbols if r in info}`.
Iterating `zero_nodata_symbols` when it is still its default `None` raises
`TypeError: 'NoneType' object is not iterable`. -/
def buildZeroNodataIndexes (zero_nodata_symbols : Option (List String))
    (infoMap : List (String × Nat × Option ℚ)) : Except String (List Nat) :=
  match zero_nodata_symbols with
  | none => .error "TypeError: NoneType object is not iterable"
  | some syms => .ok (syms.filterMap fun s => (infoMap.lookup s).map fun p => p.1)

/-- The immutable evaluation plan `mult_by_columns` hands to the repeated
tile evaluations. -/
structure EvalPlan where
  rpn_stack : List PyTok
  raster_id_list : List String
  info : List (String × Nat × Option ℚ)
  zero_nodata_indexes : List Nat
deriving DecidableEq

/-- The plan-construction part of `mult_by_columns` (lines 140-292), i.e.
everything that runs once per model before any tile is evaluated: compile
the table to an RPN stream, discover the distinct symbols (via the set
enumeration `setEnum`), resolve them against the data directory, and build
the zero-on-nodata slot set. -/
def mult_by_columns_plan (base target : String) (table : List (String × ℚ))
    (setEnum : List PyTok) (resolver : String → Option (Option ℚ))
    (zero_nodata_symbols : Option (List String)) : Except String EvalPlan := do
  let rpn ← compileTable base target table
  let ids := discoveredIds setEnum
  let info ← buildInfoMap resolver ids
  let zni ← buildZeroNodataIndexes zero_nodata_symbols info
  pure ⟨rpn, ids, info, zni⟩

/-- The first-discovery order of distinct symbol names. Modelled from the
spec (section 4.2): "Discovery simply collects all Symbol tokens, preserving
first-seen order, de-duplicated", excluding operator tokens; used only to
compare the source's set-based discovery against the spec's words. -/
def specFirstDiscoveryOrder (stream : List PyTok) : List String :=
  stream.foldl
    (fun acc t =>
      match t with
      | .str s => if opNames.contains s || acc.contains s then acc else acc ++ [s]
      | .num _ => acc) []

/-- A factor whose compilation must fail: after base-name substitution it
contains the exponent delimiter but its exponent part (the last '^'-split
component, the one `int(...)` is applied to) is not an integer literal. -/
def factorBad (base target : String) (product : String) : Bool :=
  let p := (substituteBase base target product).data
  p.contains '^' &&
    (match (pySplit '^' p).getLast? with
     | none => true
     | some last => (pyInt last).isNone)

/-- A malformed non-intercept table row in the sense of the spec's
error taxonomy: its name expression splits into zero factors, or some
factor has a non-integer exponent literal. -/
def rowMalformed (base target : String) (row : String × ℚ) : Bool :=
  decide (row.1 ≠ INTERCEPT_COLUMN_ID) &&
    ((pySplit '*' row.1.data).isEmpty ||
      (pySplit '*' row.1.data).any fun p => factorBad base target (String.mk p))

/-! ## Helper lemmas -/

theorem isclose_self (a : ℚ) : isclose a a = true := by
  simp only [isclose, RTOL, ATOL, sub_self, abs_zero, decide_eq_true_eq]
  have h := abs_nonneg a
  linarith

theorem applyOp_scalar_right (f : ℚ → ℚ → ℚ) (v : Val) (c : ℚ) :
    ∃ w, applyOp f v (.scalar c) = .ok w := by
  cases v <;> exact ⟨_, rfl⟩

theorem maskedSelect_replicate_true (n : ℕ) (xs : List ℚ) (h : n = xs.length) :
    maskedSelect (List.replicate n true) xs = .ok xs := by
  subst h
  have key : ∀ ys : List ℚ,
      ((ys.zip (List.replicate ys.length true)).filterMap
        fun p => if p.2 then some p.1 else none) = ys := by
    intro ys
    induction ys with
    | nil => rfl
    | cons y ys ih => simpa [List.replicate_succ] using ih
  simp [maskedSelect, key]

theorem scatterArr_replicate_true (t : ℚ) (n : ℕ) (xs : List ℚ) (h : n = xs.length) :
    scatterArr t (List.replicate n true) xs = .ok xs := by
  subst h
  induction xs with
  | nil => rfl
  | cons x xs ih => simp [List.replicate_succ, scatterArr, ih]

/-! ## Claims -/

/-- C1: compiling the one-term table with coefficient 2.0 and name
expression "a^2" yields the stream `[2.0, a, 2, ^, *]`, and evaluating it
over `a = [2.0, v]` with nodata `v` not approximately 2.0 and conversion
factor None yields `[8.0, target_nodata]`: the operator pops the right
operand first, and Power raises the earlier-pushed left operand (the base)
to the right operand. -/
theorem C1_power_roundtrip (v t : ℚ) (hv : isclose 2 v = false) :
    compileTable "conv" "canopy" [("a^2", 2)] =
      .ok [PyTok.num 2, PyTok.str "a", PyTok.num 2, PyTok.str "^", PyTok.str "*"] ∧
    raster_rpn_calculator_op [([2, v], some v)] t
      [PyTok.num 2, PyTok.str "a", PyTok.num 2, PyTok.str "^", PyTok.str "*"]
      [("a", 0)] [] none = .ok [8, t] := by
  refine ⟨by decide, ?_⟩
  have hs := isclose_self v
  have hq : qpow 2 2 = 4 := by norm_num [qpow]
  simp +decide [raster_rpn_calculator_op, validMask, validMaskAux, tileShape, maskAnd,
    hv, hs, hq, evalLoop, evalStep, maskedSelect, finalizeResult, applyOp, scatterVal,
    scatterArr, opNames, OPERATOR_FN]
  norm_num

/-- C1 witness: the round trip at `v = -9999`, `target_nodata = 7`. -/
theorem C1_power_roundtrip_witness :
    raster_rpn_calculator_op [([2, -9999], some (-9999))] 7
      [PyTok.num 2, PyTok.str "a", PyTok.num 2, PyTok.str "^", PyTok.str "*"]
      [("a", 0)] [] none = .ok [8, 7] :=
  (C1_power_roundtrip (-9999) 7 (by norm_num [isclose, ATOL, RTOL])).2

/-- C4: a zero-on-nodata slot never constrains the validity mask (the mask
is the same whatever array and nodata value the flagged slot holds), and on
consumption its nodata-close pixels are replaced by 0.0: with "b" flagged
and `b = [-9999, 5]`, `1.0 * b` evaluates to `[0, 5]`, while without the
flag the first pixel is excluded and holds the target nodata instead. -/
theorem C4_zero_on_nodata (t : ℚ) :
    (∀ (zeroIdx : List ℕ) (j : ℕ) (m : List Bool) arr1 nd1 arr2 nd2
        (rest : List (List ℚ × Option ℚ)), zeroIdx.contains j = true →
      validMaskAux zeroIdx j ((arr1, nd1) :: rest) m =
        validMaskAux zeroIdx j ((arr2, nd2) :: rest) m) ∧
    raster_rpn_calculator_op [([-9999, 5], some (-9999))] t
      [PyTok.num 1, PyTok.str "b", PyTok.str "*"] [("b", 0)] [0] none = .ok [0, 5] ∧
    raster_rpn_calculator_op [([-9999, 5], some (-9999))] t
      [PyTok.num 1, PyTok.str "b", PyTok.str "*"] [("b", 0)] [] none = .ok [t, 5] := by
  have hA : isclose (-9999 : ℚ) (-9999) = true := isclose_self _
  have hB : isclose (5 : ℚ) (-9999) = false := by norm_num [isclose, ATOL, RTOL]
  refine ⟨?_, ?_, ?_⟩
  · intro zeroIdx j m arr1 nd1 arr2 nd2 rest hj
    have hj2 : j ∈ zeroIdx := by simpa using hj
    cases nd1 <;> cases nd2 <;> simp [validMaskAux, hj2]
  · simp +decide [raster_rpn_calculator_op, validMask, validMaskAux, tileShape, maskAnd,
      hA, hB, evalLoop, evalStep, maskedSelect, finalizeResult, applyOp, scatterVal,
      scatterArr, opNames, OPERATOR_FN]
  · simp +decide [raster_rpn_calculator_op, validMask, validMaskAux, tileShape, maskAnd,
      hA, hB, evalLoop, evalStep, maskedSelect, finalizeResult, applyOp, scatterVal,
      scatterArr, opNames, OPERATOR_FN]

/-- C4 witness: the mask-ignores-flagged-slot clause instantiated at a
concrete flagged slot, together with the flagged evaluation. -/
theorem C4_zero_on_nodata_witness :
    validMaskAux [0] 0 [([(-9999 : ℚ)], some (-9999))] [true] =
      validMaskAux [0] 0 [([(5 : ℚ)], none)] [true] ∧
    raster_rpn_calculator_op [([-9999, 5], some (-9999))] 7
      [PyTok.num 1, PyTok.str "b", PyTok.str "*"] [("b", 0)] [0] none = .ok [0, 5] :=
  ⟨(C4_zero_on_nodata 7).1 [0] 0 [true] [(-9999 : ℚ)] (some (-9999)) [(5 : ℚ)] none []
      (by decide),
    (C4_zero_on_nodata 7).2.1⟩

theorem takeUntilNewline_eq_self (cs : List Char) (h : ∀ c ∈ cs, c ≠ '\n') :
    takeUntilNewline cs = cs := by
  unfold takeUntilNewline
  rw [List.takeWhile_eq_self_iff]
  intro x hx
  simpa using h x hx

theorem finalizeResult_ok_cons (t conv : ℚ) (mask : List Bool) (v : Val) (rest : List Val) :
    finalizeResult t conv mask (.ok (v :: rest)) =
      match applyOp (· * ·) v (.scalar conv) with
      | .error e => .error e
      | .ok scaled =>
        match scatterVal mask scaled t with
        | .error e => .error e
        | .ok out =>
          if rest.isEmpty then .ok out
          else .error "RuntimeError: accumulator_stack not empty" := rfl

/-- C6 counterexample: the claim promises the suffix after the base prefix
verbatim, but the regex capture `(.*)` stops at a newline, so a factor whose
suffix contains a newline loses everything from the newline on. -/
theorem C6_substitution_counterexample :
    "conv".data.isPrefixOf "conv_a\nb".data = true ∧
    substituteBase "conv" "canopy" "conv_a\nb" ≠ "canopy_a\nb" ∧
    substituteBase "conv" "canopy" "conv_a\nb" = "canopy_a" := by decide

/-- C6 (amended): for a base name free of regex metacharacters (the base is
interpolated into the pattern unescaped, so only then does it act as a plain
prefix), a factor starting with the base prefix resolves to the target name
followed by the suffix after the prefix, up to the first newline; when the
suffix has no newline it is preserved verbatim. A factor not starting with
the base prefix is left unchanged, for every base name; in particular
conv_forest_gs30 resolves to canopy_forest_gs30. -/
theorem C6_substitution_amended :
    (∀ base target product : String, regexLiteral base = true →
      base.data.isPrefixOf product.data = true →
      (∀ c ∈ product.data.drop base.data.length, c ≠ '\n') →
      substituteBase base target product =
        String.mk (target.data ++ product.data.drop base.data.length)) ∧
    (∀ base target product : String, base.data.isPrefixOf product.data = false →
      substituteBase base target product = product) ∧
    substituteBase "conv" "canopy" "conv_forest_gs30" = "canopy_forest_gs30" := by
  refine ⟨?_, ?_, by decide⟩
  · intro base target product _ hpre hnl
    unfold substituteBase
    rw [if_pos hpre, takeUntilNewline_eq_self _ hnl]
  · intro base target product hpre
    unfold substituteBase
    rw [if_neg]
    simp [hpre]

/-- C6 witness: the regex-literal, prefix-and-no-newline clause at the
concrete base name and factor of the claim. -/
theorem C6_substitution_witness :
    substituteBase "conv" "canopy" "conv_forest_gs30" =
      String.mk ("canopy".data ++ "conv_forest_gs30".data.drop "conv".data.length) :=
  C6_substitution_amended.1 "conv" "canopy" "conv_forest_gs30" (by decide) (by decide)
    (by decide)

/-- C7: whenever full evaluation of the token stream leaves zero values or
more than one value on the operand stack, the evaluator raises an error
(IndexError on the empty pop, RuntimeError on the surplus) and returns no
output array. -/
theorem C7_stack_imbalance (args : List (List ℚ × Option ℚ)) (t : ℚ)
    (stream : List PyTok) (info : List (String × ℕ)) (zeroIdx : List ℕ)
    (conv : Option ℚ) (st : List Val)
    (hloop : evalLoop args info zeroIdx (validMask args zeroIdx) stream [] = .ok st)
    (hlen : st.length ≠ 1) :
    ∃ e, raster_rpn_calculator_op args t stream info zeroIdx conv = .error e := by
  unfold raster_rpn_calculator_op
  rw [hloop]
  cases st with
  | nil => exact ⟨_, rfl⟩
  | cons v rest =>
    have hrest : rest ≠ [] := by
      intro hr
      subst hr
      simp at hlen
    obtain ⟨r, rest2, hr⟩ : ∃ r rest2, rest = r :: rest2 := by
      cases rest with
      | nil => exact absurd rfl hrest
      | cons r rest2 => exact ⟨r, rest2, rfl⟩
    subst hr
    obtain ⟨w, hw⟩ := applyOp_scalar_right (· * ·) v (conv.getD 1)
    rw [finalizeResult_ok_cons, hw]
    have hred : (match (Except.ok w : Except String Val) with
        | Except.error e => (Except.error e : Except String (List ℚ))
        | Except.ok scaled =>
          match scatterVal (validMask args zeroIdx) scaled t with
          | Except.error e => Except.error e
          | Except.ok out =>
            if (r :: rest2).isEmpty = true then Except.ok out
            else Except.error "RuntimeError: accumulator_stack not empty") =
      (match scatterVal (validMask args zeroIdx) w t with
        | Except.error e => Except.error e
        | Except.ok out =>
          if (r :: rest2).isEmpty = true then Except.ok out
          else Except.error "RuntimeError: accumulator_stack not empty") := rfl
    rw [hred]
    cases hsc : scatterVal (validMask args zeroIdx) w t with
    | error e => exact ⟨e, rfl⟩
    | ok out => exact ⟨_, rfl⟩

/-- C7 witness: a malformed stream with a trailing unconsumed symbol. -/
theorem C7_stack_imbalance_witness :
    ∃ e, raster_rpn_calculator_op [([1], none)] 0 [PyTok.num 1, PyTok.str "a"]
      [("a", 0)] [] none = .error e :=
  C7_stack_imbalance [([1], none)] 0 [PyTok.num 1, PyTok.str "a"] [("a", 0)] [] none
    [Val.scalar 1, Val.arr [1]] (by decide) (by decide)

/-- C10: leaving `zero_nodata_symbols` at its default None makes plan
construction fail with a TypeError while building the set of flagged slot
indices (None is iterated as if it were a set), even when compilation and
symbol resolution succeeded; the caller must pass an explicit, possibly
empty, set. -/
theorem C10_default_none_faults (base target : String) (table : List (String × ℚ))
    (setEnum : List PyTok) (resolver : String → Option (Option ℚ))
    (rpn : List PyTok) (info : List (String × ℕ × Option ℚ))
    (hc : compileTable base target table = .ok rpn)
    (hi : buildInfoMap resolver (discoveredIds setEnum) = .ok info) :
    mult_by_columns_plan base target table setEnum resolver none =
      .error "TypeError: NoneType object is not iterable" := by
  simp only [mult_by_columns_plan, hc, hi, buildZeroNodataIndexes]
  rfl

/-- C10 witness: a one-row table whose single symbol resolves, with the
default None zero-on-nodata set. -/
theorem C10_default_none_faults_witness :
    mult_by_columns_plan "conv" "canopy" [("a", 1)] [PyTok.str "a"]
      (fun _ => some none) none =
      .error "TypeError: NoneType object is not iterable" :=
  C10_default_none_faults "conv" "canopy" [("a", 1)] [PyTok.str "a"] (fun _ => some none)
    [PyTok.num 1, PyTok.str "a", PyTok.str "*"] [("a", 0, none)] (by decide) (by decide)

theorem buildInfo_core (resolver : String → Option (Option ℚ)) :
    ∀ (ids : List String) (k : ℕ), (∀ r ∈ ids, (resolver r).isSome = true) →
      (((List.enumFrom k ids).filterMap fun p =>
          (resolver p.2).map fun nd => (p.2, p.1, nd)).map fun p => p.1) = ids ∧
      (((List.enumFrom k ids).filterMap fun p =>
          (resolver p.2).map fun nd => (p.2, p.1, nd)).map fun p => p.2.1) =
        List.range' k ids.length := by
  intro ids
  induction ids with
  | nil => intro k h; simp
  | cons r rs ih =>
    intro k h
    obtain ⟨nd, hnd⟩ : ∃ nd, resolver r = some nd := by
      have hs := h r (List.mem_cons_self r rs)
      cases hr : resolver r with
      | none => rw [hr] at hs; simp at hs
      | some nd => exact ⟨nd, rfl⟩
    have ih2 := ih (k + 1) fun x hx => h x (List.mem_cons_of_mem r hx)
    simp [List.enumFrom_cons, List.filterMap_cons, hnd, ih2.1, ih2.2, List.range'_succ]

/-- C5 counterexample: discovery iterates a hash set
(`set(rpn_stack) - set(OPERATOR_FN)`), whose iteration order the language
does not fix; an admissible enumeration of the set of the stream
`[b, a]` yields `[a, b]`, not the first-appearance order `[b, a]`. -/
theorem C5_discovery_counterexample :
    ValidSetEnum [PyTok.str "a", PyTok.str "b"] [PyTok.str "b", PyTok.str "a"] ∧
    discoveredIds [PyTok.str "a", PyTok.str "b"] ≠
      specFirstDiscoveryOrder [PyTok.str "b", PyTok.str "a"] := by
  constructor
  · decide
  · decide

/-- C5 (amended): discovery yields each distinct non-operator, non-numeric
token of the stream exactly once — the discovered list has no duplicates and
holds exactly the stream's symbol names — and slot indices are the dense
0-based positions of the discovered list; but the order is the unspecified
iteration order of a hash set, so first-appearance order (and cross-run
stability) is not guaranteed. -/
theorem C5_discovery_amended :
    ∀ stream setEnum, ValidSetEnum setEnum stream →
      (discoveredIds setEnum).Nodup ∧
      (∀ s, s ∈ discoveredIds setEnum ↔
        (PyTok.str s ∈ stream ∧ opNames.contains s = false)) ∧
      (∀ resolver info, buildInfoMap resolver (discoveredIds setEnum) = .ok info →
        (info.map fun p => p.1) = discoveredIds setEnum ∧
        (info.map fun p => p.2.1) = List.range (discoveredIds setEnum).length) := by
  intro stream setEnum h
  have henum : setEnum.Nodup := h.nodup_iff.mpr (List.nodup_dedup _)
  refine ⟨?_, ?_, ?_⟩
  · refine List.Nodup.filterMap ?_ henum
    intro a a' b hb hb'
    cases a <;> cases a' <;> simp_all
  · intro s
    simp only [discoveredIds, List.mem_filterMap]
    constructor
    · rintro ⟨t, ht, hft⟩
      have hts : t = .str s := by cases t <;> simp_all
      subst hts
      have hmem := (h.mem_iff).mp ht
      rw [List.mem_dedup, List.mem_filter] at hmem
      exact ⟨hmem.1, by simpa [isOperator] using hmem.2⟩
    · rintro ⟨h1, h2⟩
      refine ⟨.str s, ?_, rfl⟩
      apply (h.mem_iff).mpr
      rw [List.mem_dedup, List.mem_filter]
      exact ⟨h1, by simpa [isOperator] using h2⟩
  · intro resolver info hok
    unfold buildInfoMap at hok
    split at hok
    case isTrue hguard =>
      have hres : ∀ r ∈ discoveredIds setEnum, (resolver r).isSome = true := by
        rw [List.isEmpty_iff, List.filter_eq_nil_iff] at hguard
        intro r hr
        have := hguard r hr
        cases hres2 : resolver r
        · rw [hres2] at this; simp at this
        · simp [hres2]
      obtain ⟨hfst, hsnd⟩ := buildInfo_core resolver (discoveredIds setEnum) 0 hres
      have hinfo : info = (List.enumFrom 0 (discoveredIds setEnum)).filterMap
          fun p => (resolver p.2).map fun nd => (p.2, p.1, nd) := by
        have := hok
        simp only [List.enum] at this ⊢
        exact (Except.ok.inj this).symm
      subst hinfo
      rw [hfst, hsnd, List.range_eq_range']
      exact ⟨rfl, rfl⟩
    case isFalse => exact absurd hok (by simp)

/-- C5 witness: the amended discovery properties at a concrete stream and a
concrete admissible set enumeration. -/
theorem C5_discovery_witness :
    (discoveredIds [PyTok.str "a", PyTok.str "b"]).Nodup ∧
    ("a" ∈ discoveredIds [PyTok.str "a", PyTok.str "b"] ↔
      (PyTok.str "a" ∈ [PyTok.str "b", PyTok.str "a"] ∧
        opNames.contains "a" = false)) :=
  ⟨(C5_discovery_amended [PyTok.str "b", PyTok.str "a"]
      [PyTok.str "a", PyTok.str "b"] (by decide)).1,
    (C5_discovery_amended [PyTok.str "b", PyTok.str "a"]
      [PyTok.str "a", PyTok.str "b"] (by decide)).2.1 "a"⟩

theorem pySplit_ne_nil (sep : Char) : ∀ cs, pySplit sep cs ≠ [] := by
  intro cs
  induction cs with
  | nil => simp [pySplit]
  | cons c cs ih =>
    by_cases hc : c = sep
    · simp [pySplit, hc]
    · cases hps : pySplit sep cs with
      | nil => simp [pySplit, hc, hps]
      | cons r rs => simp [pySplit, hc, hps]

theorem compileFactor_error_of_bad (base target product : String)
    (h : factorBad base target product = true) :
    ∃ e, compileFactor base target product = .error e := by
  unfold factorBad at h
  rw [Bool.and_eq_true] at h
  obtain ⟨h1, h2⟩ := h
  simp only [compileFactor, h1, if_true]
  cases hl : (pySplit '^' (substituteBase base target product).data).getLast? with
  | none => exact ⟨_, rfl⟩
  | some last =>
    rw [hl] at h2
    simp only [Option.isNone_iff_eq_none] at h2
    simp [h2]

theorem foldFactors_error (base target : String) :
    ∀ (parts : List (List Char)) (acc : List PyTok) (p : List Char), p ∈ parts →
      (∃ e, compileFactor base target (String.mk p) = .error e) →
      ∃ e, parts.foldlM
        (fun (acc : List PyTok) q => do
          let ts ← compileFactor base target (String.mk q)
          pure (acc ++ ts ++ [PyTok.str "*"])) acc = .error e := by
  intro parts
  induction parts with
  | nil => intro acc p hp; exact absurd hp (List.not_mem_nil p)
  | cons q qs ih =>
    intro acc p hp hbad
    rw [List.foldlM_cons]
    cases hcf : compileFactor base target (String.mk q) with
    | error e => exact ⟨e, rfl⟩
    | ok ts =>
      rcases List.mem_cons.mp hp with hq | hq
      · subst hq
        obtain ⟨e, he⟩ := hbad
        rw [hcf] at he
        cases he
      · obtain ⟨e, he⟩ := ih (acc ++ ts ++ [PyTok.str "*"]) p hq hbad
        exact ⟨e, he⟩

theorem compileRow_error_of_malformed (base target : String) (row : String × ℚ)
    (h : rowMalformed base target row = true) :
    ∃ e, compileRow base target row = .error e := by
  unfold rowMalformed at h
  rw [Bool.and_eq_true] at h
  obtain ⟨hni, hrest⟩ := h
  have hni2 : ¬(row.1 = INTERCEPT_COLUMN_ID) := by simpa using hni
  rw [Bool.or_eq_true] at hrest
  have hbad : ∃ p ∈ pySplit '*' row.1.data,
      factorBad base target (String.mk p) = true := by
    cases hrest with
    | inl hemp => exact absurd (List.isEmpty_iff.mp hemp) (pySplit_ne_nil '*' row.1.data)
    | inr hany => simpa [List.any_eq_true] using hany
  obtain ⟨p, hp, hbadp⟩ := hbad
  obtain ⟨e2, he2⟩ := foldFactors_error base target (pySplit '*' row.1.data) [] p hp
    (compileFactor_error_of_bad base target (String.mk p) hbadp)
  refine ⟨e2, ?_⟩
  simp only [compileRow, hni2, if_false]
  rw [he2]
  rfl

theorem foldRows_error (base target : String) :
    ∀ (rows : List (String × ℚ)) (acc : Bool × List PyTok) (row : String × ℚ),
      row ∈ rows → (∃ e, compileRow base target row = .error e) →
      ∃ e, rows.foldlM
        (fun (acc : Bool × List PyTok) r => do
          let ts ← compileRow base target r
          if acc.1 then pure (false, acc.2 ++ ts)
          else pure (false, acc.2 ++ ts ++ [PyTok.str "+"])) acc = .error e := by
  intro rows
  induction rows with
  | nil => intro acc row hrow; exact absurd hrow (List.not_mem_nil row)
  | cons q qs ih =>
    intro acc row hrow hbad
    rw [List.foldlM_cons]
    cases hcr : compileRow base target q with
    | error e => exact ⟨e, rfl⟩
    | ok ts =>
      rcases List.mem_cons.mp hrow with hq | hq
      · subst hq
        obtain ⟨e, he⟩ := hbad
        rw [hcr] at he
        cases he
      · cases hacc : acc.1 with
        | true =>
          obtain ⟨e, he⟩ := ih (false, acc.2 ++ ts) row hq hbad
          exact ⟨e, he⟩
        | false =>
          obtain ⟨e, he⟩ := ih (false, acc.2 ++ ts ++ [PyTok.str "+"]) row hq hbad
          exact ⟨e, he⟩

/-- C8: a table containing a non-intercept row whose name expression splits
into zero factors, or a row with an exponent factor whose exponent part is
not an integer literal, makes compilation fail while parsing the table —
and therefore plan construction fails before any tile evaluation begins. -/
theorem C8_malformed_row_construction_fault (base target : String)
    (table : List (String × ℚ))
    (h : ∃ row ∈ table, rowMalformed base target row = true) :
    (∃ e, compileTable base target table = .error e) ∧
    (∀ setEnum resolver zns,
      ∃ e, mult_by_columns_plan base target table setEnum resolver zns = .error e) := by
  obtain ⟨row, hrow, hmal⟩ := h
  have htab : ∃ e, compileTable base target table = .error e := by
    obtain ⟨e, he⟩ := foldRows_error base target table (true, []) row hrow
      (compileRow_error_of_malformed base target row hmal)
    refine ⟨e, ?_⟩
    unfold compileTable
    rw [he]
    rfl
  refine ⟨htab, ?_⟩
  intro setEnum resolver zns
  obtain ⟨e, he⟩ := htab
  refine ⟨e, ?_⟩
  unfold mult_by_columns_plan
  rw [he]
  rfl

/-- C8 witness: the exponent "b" of the factor "a^b" is not an integer
literal, so compiling the one-row table faults. -/
theorem C8_malformed_row_witness :
    ∃ e, compileTable "conv" "canopy" [("a^b", 1)] = .error e :=
  (C8_malformed_row_construction_fault "conv" "canopy" [("a^b", 1)]
    ⟨("a^b", 1), by decide, by decide⟩).1

theorem evalStep_flagged_none (args : List (List ℚ × Option ℚ))
    (info : List (String × ℕ)) (zeroIdx : List ℕ) (mask : List Bool)
    (stack : List Val) (sym : String) (slot : ℕ) (arr : List ℚ)
    (hop : opNames.contains sym = false) (hl : info.lookup sym = some slot)
    (hz : zeroIdx.contains slot = true) (ha : args.get? slot = some (arr, none)) :
    evalStep args info zeroIdx mask stack (.str sym) =
      .error "TypeError: isclose against a None nodata" := by
  have hop2 : sym ∉ opNames := by simpa using hop
  have hz2 : slot ∈ zeroIdx := by simpa using hz
  have ha2 : args[slot]? = some (arr, none) := by simpa using ha
  simp [evalStep, hop2, hl, ha2, hz2]

theorem evalLoop_flagged_none (args : List (List ℚ × Option ℚ))
    (info : List (String × ℕ)) (zeroIdx : List ℕ) (mask : List Bool)
    (sym : String) (slot : ℕ) (arr : List ℚ)
    (hop : opNames.contains sym = false) (hl : info.lookup sym = some slot)
    (hz : zeroIdx.contains slot = true) (ha : args.get? slot = some (arr, none)) :
    ∀ (ts : List PyTok) (stack : List Val), PyTok.str sym ∈ ts →
      ∃ e, evalLoop args info zeroIdx mask ts stack = .error e := by
  intro ts
  induction ts with
  | nil => intro stack h; exact absurd h (List.not_mem_nil _)
  | cons t ts ih =>
    intro stack hmem
    by_cases ht : t = PyTok.str sym
    · subst ht
      refine ⟨"TypeError: isclose against a None nodata", ?_⟩
      unfold evalLoop
      rw [evalStep_flagged_none args info zeroIdx mask stack sym slot arr hop hl hz ha]
    · have hmem2 : PyTok.str sym ∈ ts := by
        rcases List.mem_cons.mp hmem with h | h
        · exact absurd h.symm ht
        · exact h
      unfold evalLoop
      cases hstep : evalStep args info zeroIdx mask stack t with
      | error e => exact ⟨e, rfl⟩
      | ok stack2 => exact ih stack2 hmem2

/-- C9: a slot flagged zero-on-nodata whose nodata value is undefined (None)
makes evaluation of every token stream that consumes that slot's symbol
raise an error (the `numpy.isclose(array, None)` comparison is ill-defined)
instead of treating all pixels as valid: a defined nodata value for every
flagged symbol is an unstated precondition of tile evaluation. -/
theorem C9_flagged_undefined_nodata_faults (args : List (List ℚ × Option ℚ))
    (t : ℚ) (stream : List PyTok) (info : List (String × ℕ)) (zeroIdx : List ℕ)
    (conv : Option ℚ) (sym : String) (slot : ℕ) (arr : List ℚ)
    (hop : opNames.contains sym = false) (hl : info.lookup sym = some slot)
    (hz : zeroIdx.contains slot = true) (ha : args.get? slot = some (arr, none))
    (hmem : PyTok.str sym ∈ stream) :
    ∃ e, raster_rpn_calculator_op args t stream info zeroIdx conv = .error e := by
  obtain ⟨e, he⟩ := evalLoop_flagged_none args info zeroIdx
    (validMask args zeroIdx) sym slot arr hop hl hz ha stream [] hmem
  refine ⟨e, ?_⟩
  unfold raster_rpn_calculator_op
  rw [he]
  rfl

/-- C9 witness: symbol "b" flagged with an undefined nodata value. -/
theorem C9_flagged_undefined_nodata_witness :
    ∃ e, raster_rpn_calculator_op [([1], none)] 0 [PyTok.str "b"]
      [("b", 0)] [0] none = .error e :=
  C9_flagged_undefined_nodata_faults [([1], none)] 0 [PyTok.str "b"] [("b", 0)] [0]
    none "b" 0 [1] (by decide) (by decide) (by decide) (by decide) (by decide)

theorem except_pure {α : Type} (a : α) : (pure a : Except String α) = Except.ok a := rfl

theorem except_bind_ok {α β : Type} (a : α) (f : α → Except String β) :
    ((Except.ok a : Except String α) >>= f) = f a := rfl

theorem except_bind_error {α β : Type} (e : String) (f : α → Except String β) :
    ((Except.error e : Except String α) >>= f) = .error e := rfl

theorem zipWith_add_map_two (a b : List ℚ) :
    List.zipWith (fun x y => x + y) a (List.map (fun x => 2 * x) b) =
    List.zipWith (fun x y => x + y * 2) a b := by
  induction a generalizing b with
  | nil => simp
  | cons x xs ih =>
    cases b with
    | nil => simp
    | cons y ys =>
      simp only [List.map_cons, List.zipWith_cons_cons, List.cons.injEq]
      exact ⟨by ring, ih ys⟩

theorem map_mul_one_zipWith (a b : List ℚ) :
    List.map (fun x => x * 1)
      (List.zipWith (fun x y => x + y)
        (List.map (fun x => 1 * x) a) (List.map (fun x => 2 * x) b)) =
    List.zipWith (fun x y => x * 1 + y * 2) a b := by
  induction a generalizing b with
  | nil => simp
  | cons x xs ih =>
    cases b with
    | nil => simp
    | cons y ys =>
      simp only [List.map_cons, List.zipWith_cons_cons, List.cons.injEq]
      exact ⟨by ring, ih ys⟩

theorem compileTable_fold_tail (base target : String) :
    ∀ (rows : List (String × ℚ)) (acc : List PyTok),
      List.foldlM
        (fun (acc : Bool × List PyTok) row => do
          let ts ← compileRow base target row
          if acc.1 then pure (false, acc.2 ++ ts)
          else pure (false, acc.2 ++ ts ++ [PyTok.str "+"])) (false, acc) rows =
      Except.map
        (fun parts => (false, acc ++ (parts.map fun ts => ts ++ [PyTok.str "+"]).join))
        (rows.mapM (compileRow base target)) := by
  intro rows
  induction rows with
  | nil =>
    intro acc
    have hnil : (List.mapM (compileRow base target) ([] : List (String × ℚ))) =
        Except.ok [] := rfl
    rw [hnil]
    simp [Except.map, except_pure]
  | cons r rs ih =>
    intro acc
    rw [List.foldlM_cons, List.mapM_cons]
    cases hcr : compileRow base target r with
    | error e => rfl
    | ok ts =>
      have ih2 := ih (acc ++ ts ++ [PyTok.str "+"])
      cases hm : rs.mapM (compileRow base target) with
      | error e =>
        rw [hm] at ih2
        exact ih2
      | ok parts =>
        rw [hm] at ih2
        refine ih2.trans ?_
        simp [Except.map, except_bind_ok, List.append_assoc]

/-- C2: for every table of two or more rows that compiles, the stream is
the first row's tokens followed, for each later row in order, by that row's
tokens and exactly one Add token (the first term is never preceded by an
Add; every later term is folded in with Add, never Multiply); the two-term
table `(1.0, a); (2.0, b)` compiles to
`[1.0, a, *, 2.0, b, *, +]` and evaluates on all-valid pixels to
`a*1.0 + b*2.0` in row order. -/
theorem C2_terms_fold_in_row_order :
    (∀ (base target : String) (r0 : String × ℚ) (rest : List (String × ℚ))
        (s : List PyTok),
      compileTable base target (r0 :: rest) = .ok s →
      ∃ t0 parts, compileRow base target r0 = .ok t0 ∧
        rest.mapM (compileRow base target) = .ok parts ∧
        s = t0 ++ (parts.map fun ts => ts ++ [PyTok.str "+"]).join) ∧
    compileTable "conv" "canopy" [("a", 1), ("b", 2)] =
      .ok [PyTok.num 1, PyTok.str "a", PyTok.str "*",
        PyTok.num 2, PyTok.str "b", PyTok.str "*", PyTok.str "+"] ∧
    (∀ (a b : List ℚ) (t : ℚ), a.length = b.length →
      raster_rpn_calculator_op [(a, none), (b, none)] t
        [PyTok.num 1, PyTok.str "a", PyTok.str "*",
          PyTok.num 2, PyTok.str "b", PyTok.str "*", PyTok.str "+"]
        [("a", 0), ("b", 1)] [] none =
        .ok (List.zipWith (fun x y => x * 1 + y * 2) a b)) := by
  refine ⟨?_, by decide, ?_⟩
  · intro base target r0 rest s hok
    unfold compileTable at hok
    rw [List.foldlM_cons] at hok
    cases hcr : compileRow base target r0 with
    | error e =>
      rw [hcr] at hok
      exact Except.noConfusion
        (show (Except.error e : Except String (List PyTok)) = .ok s from hok)
    | ok t0 =>
      rw [hcr] at hok
      have hok2 : (do
          let r ← List.foldlM
            (fun (acc : Bool × List PyTok) row => do
              let ts ← compileRow base target row
              if acc.1 then pure (false, acc.2 ++ ts)
              else pure (false, acc.2 ++ ts ++ [PyTok.str "+"]))
            (false, ([] : List PyTok) ++ t0) rest
          pure r.2) = Except.ok s := hok
      rw [compileTable_fold_tail base target rest (([] : List PyTok) ++ t0)] at hok2
      cases hm : rest.mapM (compileRow base target) with
      | error e =>
        rw [hm] at hok2
        exact Except.noConfusion
          (show (Except.error e : Except String (List PyTok)) = .ok s from hok2)
      | ok parts =>
        rw [hm] at hok2
        have hs : (([] : List PyTok) ++ t0) ++
            (parts.map fun ts => ts ++ [PyTok.str "+"]).join = s := by
          simpa [Except.map] using hok2
        refine ⟨t0, parts, rfl, rfl, ?_⟩
        rw [← hs]
        simp
  · intro a b t h
    have hmask : validMask [(a, none), (b, none)] [] =
        List.replicate a.length true := by
      simp [validMask, validMaskAux, tileShape]
    have hsa : maskedSelect (List.replicate a.length true) a = .ok a :=
      maskedSelect_replicate_true _ _ rfl
    have hsb : maskedSelect (List.replicate a.length true) b = .ok b :=
      maskedSelect_replicate_true _ _ h
    have hsc2 : scatterArr t (List.replicate a.length true)
        (List.zipWith (fun x y => x + y * 2) a b) =
        .ok (List.zipWith (fun x y => x + y * 2) a b) :=
      scatterArr_replicate_true t _ _ (by simp [List.length_zipWith, h])
    have hif : (a.length = b.length) = True := by simp [h]
    simp +decide [raster_rpn_calculator_op, hmask, evalLoop, evalStep, opNames,
      OPERATOR_FN, applyOp, hsa, hsb, hif, finalizeResult, scatterVal,
      zipWith_add_map_two, hsc2, List.lookup]

/-- C2 witness: the two-term evaluation and the structural decomposition at
concrete inputs. -/
theorem C2_terms_fold_witness :
    raster_rpn_calculator_op [([5], none), ([7], none)] 0
      [PyTok.num 1, PyTok.str "a", PyTok.str "*",
        PyTok.num 2, PyTok.str "b", PyTok.str "*", PyTok.str "+"]
      [("a", 0), ("b", 1)] [] none = .ok [19] ∧
    ∃ t0 parts, compileRow "conv" "canopy" ("a", 1) = .ok t0 ∧
      [("b", 2)].mapM (compileRow "conv" "canopy") = .ok parts ∧
      [PyTok.num 1, PyTok.str "a", PyTok.str "*",
        PyTok.num 2, PyTok.str "b", PyTok.str "*", PyTok.str "+"] =
        t0 ++ (parts.map fun ts => ts ++ [PyTok.str "+"]).join := by
  constructor
  · have h := C2_terms_fold_in_row_order.2.2 [5] [7] 0 rfl
    norm_num at h ⊢
    exact h
  · exact C2_terms_fold_in_row_order.1 "conv" "canopy" ("a", 1) [("b", 2)] _
      (by decide)

theorem maskAnd_get? (nv : ℚ) :
    ∀ (m : List Bool) (arr : List ℚ), arr.length = m.length →
      ∀ i, (maskAnd m arr nv).get? i =
        (m.get? i).map fun bb => bb && !(isclose (arr.getD i 0) nv) := by
  intro m
  induction m with
  | nil =>
    intro arr h i
    have harr : arr = [] := List.length_eq_zero.mp h
    subst harr
    simp [maskAnd]
  | cons bm ms ih =>
    intro arr h i
    cases arr with
    | nil => simp at h
    | cons x xs =>
      have h2 : xs.length = ms.length := by simpa using h
      cases i with
      | zero => simp [maskAnd]
      | succ i => simpa [maskAnd] using ih xs h2 i

theorem validMaskAux_get?_true (zeroIdx : List ℕ) :
    ∀ (args : List (List ℚ × Option ℚ)) (j : ℕ) (m : List Bool),
      (∀ p ∈ args, p.1.length = m.length) →
      ∀ i, ((validMaskAux zeroIdx j args m).get? i = some true ↔
        (m.get? i = some true ∧
          ∀ k arr nd, args.get? k = some (arr, some nd) →
            zeroIdx.contains (j + k) = false →
            isclose (arr.getD i 0) nd = false)) := by
  intro args
  induction args with
  | nil =>
    intro j m hlen i
    constructor
    · intro hm
      refine ⟨by simpa [validMaskAux] using hm, ?_⟩
      intro k arr nd hk
      simp at hk
    · rintro ⟨hm, _⟩
      simpa [validMaskAux] using hm
  | cons p rest ih =>
    intro j m hlen i
    obtain ⟨arr, nd⟩ := p
    have harr : arr.length = m.length := hlen (arr, nd) (List.mem_cons_self _ _)
    have hrest : ∀ q ∈ rest, q.1.length = m.length :=
      fun q hq => hlen q (List.mem_cons_of_mem _ hq)
    have hidx : ∀ k : ℕ, j + (k + 1) = (j + 1) + k := by omega
    cases nd with
    | none =>
      have hstep : validMaskAux zeroIdx j ((arr, none) :: rest) m =
          validMaskAux zeroIdx (j + 1) rest m := rfl
      rw [hstep, ih (j + 1) m hrest i]
      constructor
      · rintro ⟨hm, hcond⟩
        refine ⟨hm, ?_⟩
        intro k arr2 nd2 hk hz
        cases k with
        | zero => simp at hk
        | succ k =>
          refine hcond k arr2 nd2 (by simpa using hk) ?_
          rw [← hidx k]
          exact hz
      · rintro ⟨hm, hcond⟩
        refine ⟨hm, ?_⟩
        intro k arr2 nd2 hk hz
        refine hcond (k + 1) arr2 nd2 (by simpa using hk) ?_
        rw [hidx k]
        exact hz
    | some nv =>
      cases hz0 : zeroIdx.contains j with
      | true =>
        have hz0m : j ∈ zeroIdx := by simpa using hz0
        have hstep : validMaskAux zeroIdx j ((arr, some nv) :: rest) m =
            validMaskAux zeroIdx (j + 1) rest m := by
          simp [validMaskAux, hz0m]
        rw [hstep, ih (j + 1) m hrest i]
        constructor
        · rintro ⟨hm, hcond⟩
          refine ⟨hm, ?_⟩
          intro k arr2 nd2 hk hzk
          cases k with
          | zero =>
            rw [Nat.add_zero, hz0] at hzk
            cases hzk
          | succ k =>
            refine hcond k arr2 nd2 (by simpa using hk) ?_
            rw [← hidx k]
            exact hzk
        · rintro ⟨hm, hcond⟩
          refine ⟨hm, ?_⟩
          intro k arr2 nd2 hk hzk
          refine hcond (k + 1) arr2 nd2 (by simpa using hk) ?_
          rw [hidx k]
          exact hzk
      | false =>
        have hz0m : j ∉ zeroIdx := by simpa using hz0
        have hstep : validMaskAux zeroIdx j ((arr, some nv) :: rest) m =
            validMaskAux zeroIdx (j + 1) rest (maskAnd m arr nv) := by
          simp [validMaskAux, hz0m]
        have hrest2 : ∀ q ∈ rest, q.1.length = (maskAnd m arr nv).length := by
          intro q hq
          rw [show (maskAnd m arr nv).length = m.length from by simp [maskAnd, harr]]
          exact hrest q hq
        rw [hstep, ih (j + 1) (maskAnd m arr nv) hrest2 i]
        rw [maskAnd_get? nv m arr harr i]
        constructor
        · rintro ⟨hm, hcond⟩
          cases hmi : m.get? i with
          | none => rw [hmi] at hm; simp at hm
          | some bb =>
            rw [hmi] at hm
            have hm2 := Option.some.inj hm
            have hbb : bb = true := ((Bool.and_eq_true _ _).mp hm2).1
            have hcl : isclose (arr.getD i 0) nv = false := by
              have h2 := ((Bool.and_eq_true _ _).mp hm2).2
              simpa using h2
            subst hbb
            refine ⟨rfl, ?_⟩
            intro k arr2 nd2 hk hzk
            cases k with
            | zero =>
              have hk2 : (arr, some nv) = (arr2, some nd2) := by simpa using hk
              have harr2 : arr = arr2 := congrArg Prod.fst hk2
              have hnd2 : nv = nd2 := by
                have := congrArg Prod.snd hk2
                simpa using this
              rw [← harr2, ← hnd2]
              exact hcl
            | succ k =>
              refine hcond k arr2 nd2 (by simpa using hk) ?_
              rw [← hidx k]
              exact hzk
        · rintro ⟨hm, hcond⟩
          have hcl : isclose (arr.getD i 0) nv = false := by
            refine hcond 0 arr nv (by simp) ?_
            rw [Nat.add_zero]
            exact hz0
          refine ⟨?_, ?_⟩
          · rw [hm]
            simpa using hcl
          · intro k arr2 nd2 hk hzk
            refine hcond (k + 1) arr2 nd2 (by simpa using hk) ?_
            rw [hidx k]
            exact hzk

theorem scatterArr_get?_false (t : ℚ) :
    ∀ (mask : List Bool) (xs out : List ℚ), scatterArr t mask xs = .ok out →
      ∀ i, mask.get? i = some false → out.get? i = some t := by
  intro mask
  induction mask with
  | nil => intro xs out hok i hi; simp at hi
  | cons bm bs ih =>
    intro xs out hok i hi
    cases bm with
    | false =>
      simp only [scatterArr] at hok
      cases hrec : scatterArr t bs xs with
      | error e => rw [hrec] at hok; exact absurd hok (by simp)
      | ok r =>
        rw [hrec] at hok
        have hout : out = t :: r := (Except.ok.inj hok).symm
        cases i with
        | zero => rw [hout]; rfl
        | succ i =>
          rw [hout]
          exact ih xs r hrec i (by simpa using hi)
    | true =>
      cases xs with
      | nil => simp [scatterArr] at hok
      | cons x xt =>
        simp only [scatterArr] at hok
        cases hrec : scatterArr t bs xt with
        | error e => rw [hrec] at hok; exact absurd hok (by simp)
        | ok r =>
          rw [hrec] at hok
          have hout : out = x :: r := (Except.ok.inj hok).symm
          cases i with
          | zero => simp at hi
          | succ i =>
            rw [hout]
            exact ih xt r hrec i (by simpa using hi)

theorem scatterVal_get?_false (mask : List Bool) (v : Val) (t : ℚ) (out : List ℚ)
    (hok : scatterVal mask v t = .ok out) (i : ℕ) (hi : mask.get? i = some false) :
    out.get? i = some t := by
  cases v with
  | scalar q =>
    have hok2 : (Except.ok (mask.map fun b => if b then q else t) :
        Except String (List ℚ)) = Except.ok out := hok
    have hout : out = mask.map fun b => if b then q else t :=
      (Except.ok.inj hok2).symm
    rw [hout, List.get?_eq_getElem?, List.getElem?_map]
    rw [List.get?_eq_getElem?] at hi
    rw [hi]
    rfl
  | arr xs =>
    exact scatterArr_get?_false t mask xs out (by simpa [scatterVal] using hok) i hi

/-- C3: a pixel is in the validity mask iff, for every slot that is not
flagged zero-on-nodata and has a defined nodata value, the pixel's value in
that slot's array is not approximately equal (tolerant comparison) to that
slot's nodata value — slots with an undefined nodata value never exclude a
pixel — and every pixel excluded from the mask holds exactly the target
nodata in the returned output array. -/
theorem C3_validity_mask (args : List (List ℚ × Option ℚ)) (zeroIdx : List ℕ)
    (i : ℕ) (hlen : ∀ p ∈ args, p.1.length = tileShape args) :
    (((validMask args zeroIdx).get? i = some true) ↔
      (i < tileShape args ∧
        ∀ k arr nd, args.get? k = some (arr, some nd) →
          zeroIdx.contains k = false → isclose (arr.getD i 0) nd = false)) ∧
    (∀ (t : ℚ) (stream : List PyTok) (info : List (String × ℕ)) (conv : Option ℚ)
        (out : List ℚ),
      raster_rpn_calculator_op args t stream info zeroIdx conv = .ok out →
      (validMask args zeroIdx).get? i = some false → out.get? i = some t) := by
  constructor
  · unfold validMask
    rw [validMaskAux_get?_true zeroIdx args 0
      (List.replicate (tileShape args) true) (by simpa using hlen) i]
    constructor
    · rintro ⟨hm, hcond⟩
      refine ⟨?_, ?_⟩
      · by_contra hlt
        rw [List.get?_eq_getElem?, List.getElem?_replicate] at hm
        simp [hlt] at hm
      · intro k arr nd hk hz
        exact hcond k arr nd hk (by simpa using hz)
    · rintro ⟨hlt, hcond⟩
      refine ⟨?_, ?_⟩
      · rw [List.get?_eq_getElem?, List.getElem?_replicate]
        simp [hlt]
      · intro k arr nd hk hz
        exact hcond k arr nd hk (by simpa using hz)
  · intro t stream info conv out hok hfalse
    unfold raster_rpn_calculator_op at hok
    cases hloop : evalLoop args info zeroIdx (validMask args zeroIdx) stream [] with
    | error e =>
      rw [hloop] at hok
      exact absurd hok (by simp [finalizeResult])
    | ok st =>
      rw [hloop] at hok
      cases st with
      | nil => exact absurd hok (by simp [finalizeResult])
      | cons v rest =>
        rw [finalizeResult_ok_cons] at hok
        obtain ⟨w, hw⟩ := applyOp_scalar_right (· * ·) v (conv.getD 1)
        rw [hw] at hok
        have hred : (match (Except.ok w : Except String Val) with
            | Except.error e => (Except.error e : Except String (List ℚ))
            | Except.ok scaled =>
              match scatterVal (validMask args zeroIdx) scaled t with
              | Except.error e => Except.error e
              | Except.ok out =>
                if rest.isEmpty = true then Except.ok out
                else Except.error "RuntimeError: accumulator_stack not empty") =
          (match scatterVal (validMask args zeroIdx) w t with
            | Except.error e => Except.error e
            | Except.ok out =>
              if rest.isEmpty = true then Except.ok out
              else Except.error "RuntimeError: accumulator_stack not empty") := rfl
        rw [hred] at hok
        cases hsc : scatterVal (validMask args zeroIdx) w t with
        | error e =>
          rw [hsc] at hok
          exact absurd hok (by simp)
        | ok out2 =>
          rw [hsc] at hok
          cases hrest : rest.isEmpty with
          | false =>
            rw [hrest] at hok
            exact absurd hok (by simp)
          | true =>
            rw [hrest] at hok
            have hok2 : (Except.ok out2 : Except String (List ℚ)) = Except.ok out := hok
            have hout : out = out2 := (Except.ok.inj hok2).symm
            rw [hout]
            exact scatterVal_get?_false (validMask args zeroIdx) w t out2 hsc i hfalse

/-- C3 witness: the mask characterization instantiated on a concrete tile
with one slot of nodata 5: pixel 0 (value 1) is valid. -/
theorem C3_validity_mask_witness :
    (validMask [([1, 5], some 5)] []).get? 0 = some true :=
  (C3_validity_mask [([1, 5], some 5)] [] 0 (by simp [tileShape])).1.mpr
    ⟨by simp [tileShape], by
      intro k arr nd hk hz
      cases k with
      | zero =>
        have hk2 : ([(1 : ℚ), 5], some (5 : ℚ)) = (arr, some nd) := by simpa using hk
        have harr : arr = [1, 5] := (congrArg Prod.fst hk2).symm
        have hnd : nd = 5 := by
          have := congrArg Prod.snd hk2
          simpa using this.symm
        subst harr
        subst hnd
        norm_num [isclose, ATOL, RTOL]
      | succ k => simp at hk⟩

end MultByColumns
